import Mathlib

/-!
Shallow embedding of the FarmVibes.AI run-lifecycle client
(`vibe_core/client.py` and `vibe_core/datamodel.py`).

Conventions of the embedding:
* JSON-like structured data is the inductive `Json`; Python `datetime`
  objects that live inside structures are the `Json.date` constructor,
  carrying a numeric timestamp (`Nat`).
* External collaborators that are not part of the embedded sources
  (`json.loads`, `serialize_input`, `shapely.mapping`, the STAC output
  converter) are passed in as function parameters, so theorems quantify
  over their behaviour.
* `dateutil.parser.parse` is modelled from the spec: it turns textual
  timestamps into typed timestamps and fails on non-date text; here a
  textual timestamp is a decimal numeral.
* Python exceptions are `Except` values; `PyErr` distinguishes the
  `ValueError` raised for invalid arguments from the `ParserError`
  raised by the date parser (which is not caught by `except TypeError`).
-/

inductive Json where
  | null
  | str (s : String)
  | num (n : Int)
  | date (d : Nat)
  | arr (items : List Json)
  | obj (fields : List (String × Json))
deriving Repr

inductive PyErr where
  | valueError (msg : String)
  | parserError
deriving DecidableEq, Repr

/-- The numeric value of a decimal digit character, `none` otherwise. -/
def digitVal (c : Char) : Option Nat :=
  if '0' ≤ c ∧ c ≤ '9' then some (c.toNat - '0'.toNat) else none

/-- Accumulator pass over the digits of a decimal numeral. -/
def parseDigits : List Char → Nat → Option Nat
  | [], acc => some acc
  | c :: cs, acc =>
      match digitVal c with
      | some d => parseDigits cs (acc * 10 + d)
      | none => none

/-- Modelled from the spec: the external date parser (`dateutil.parser.parse`)
parses textual timestamps into typed timestamps and fails on non-date text.
A textual timestamp is modelled as a nonempty decimal numeral
(e.g. "20200101"). -/
def parseDate (s : String) : Option Nat :=
  match s.toList with
  | [] => none
  | cs => parseDigits cs 0

/-- Association lookup in a JSON object, as Python `dict` access. -/
def lookupField (fields : List (String × Json)) (k : String) : Option Json :=
  (fields.find? (fun p => p.1 = k)).map (fun p => p.2)

/-- `RunStatus` (datamodel.py): the closed enumeration of run states. -/
inductive RunStatus where
  | pending
  | queued
  | running
  | failed
  | done
  | cancelled
  | cancelling
deriving DecidableEq, Repr

/-- The string value of each `RunStatus` member (StrEnum `auto()` values). -/
def RunStatus.toStr : RunStatus → String
  | .pending => "pending"
  | .queued => "queued"
  | .running => "running"
  | .failed => "failed"
  | .done => "done"
  | .cancelled => "cancelled"
  | .cancelling => "cancelling"

/-- `RunStatus.finished` (datamodel.py): status is in (done, cancelled, failed). -/
def RunStatus.finished (status : RunStatus) : Bool :=
  status = RunStatus.done ∨ status = RunStatus.cancelled ∨ status = RunStatus.failed

/-- `SpatioTemporalJson` (datamodel.py): the spatio-temporal envelope.
Field values are kept as `Json` values because the Python dataclass does not
constrain them; `__post_init__` replaces textual dates by parsed dates. -/
structure SpatioTemporalJson where
  start_date : Json
  end_date : Json
  geojson : Json
deriving Repr

/-- One date field of `SpatioTemporalJson.__post_init__`: a `str` value is
parsed (a parse failure raises `ParserError`); any other value is kept. -/
def stjPostField : Json → Except PyErr Json
  | .str s =>
      match parseDate s with
      | some d => .ok (.date d)
      | none => .error .parserError
  | v => .ok v

/-- `SpatioTemporalJson` construction including `__post_init__`. -/
def mkSpatioTemporalJson (sd ed gj : Json) : Except PyErr SpatioTemporalJson := do
  let sd' ← stjPostField sd
  let ed' ← stjPostField ed
  .ok ⟨sd', ed', gj⟩

/-- The user-input union of `RunConfigInput`: either a coerced
`SpatioTemporalJson` value or an opaque structured payload. -/
inductive UserInput where
  | stj (v : SpatioTemporalJson)
  | json (v : Json)
deriving Repr

/-- `RunConfigInput.__post_init__` on `user_input`: a `dict` value is passed to
`SpatioTemporalJson(**d)`, which succeeds exactly when the keys are exactly
start_date, end_date, geojson; a signature mismatch (`TypeError`) is caught
and leaves the value unchanged, while a date-parse failure propagates. -/
def coerceUserInput : UserInput → Except PyErr UserInput
  | .json (.obj fields) =>
      match lookupField fields "start_date", lookupField fields "end_date",
            lookupField fields "geojson" with
      | some sd, some ed, some gj =>
          if fields.length = 3 then do
            let v ← mkSpatioTemporalJson sd ed gj
            .ok (.stj v)
          else .ok (.json (.obj fields))
      | _, _, _ => .ok (.json (.obj fields))
  | u => .ok u

/-- The workflow reference: an opaque name string or a structured definition. -/
inductive WorkflowField where
  | text (s : String)
  | structured (v : Json)
deriving Repr

/-- `RunBase.__post_init__`: a textual workflow that parses as JSON is replaced
by the structured form; `jsonLoads` is the external `json.loads`. -/
def normWorkflow (jsonLoads : String → Option Json) : WorkflowField → WorkflowField
  | .text s =>
      match jsonLoads s with
      | some v => .structured v
      | none => .text s
  | w => w

/-- `RunConfigInput` after `__post_init__` (name, workflow, parameters,
user_input). -/
structure RunConfigInput where
  name : String
  workflow : WorkflowField
  parameters : Option Json
  user_input : UserInput
deriving Repr

/-- `RunConfigInput(...)` construction including both `__post_init__` steps. -/
def mkRunConfigInput (jsonLoads : String → Option Json) (name : String)
    (workflow : WorkflowField) (parameters : Option Json) (ui : UserInput) :
    Except PyErr RunConfigInput := do
  let ui' ← coerceUserInput ui
  .ok ⟨name, normWorkflow jsonLoads workflow, parameters, ui'⟩

/-- `dataclasses.asdict` image of the user-input union: a coerced
`SpatioTemporalJson` becomes a mapping in dataclass field order;
an opaque payload is kept as-is (datetimes inside are left as objects). -/
def UserInput.asdict : UserInput → Json
  | .stj v => .obj [("start_date", v.start_date), ("end_date", v.end_date),
                    ("geojson", v.geojson)]
  | .json v => v

/-- The built submission payload (`asdict(RunConfigInput(...))`). -/
structure Payload where
  name : String
  workflow : WorkflowField
  parameters : Option Json
  user_input : Json
deriving Repr

/-- `FarmvibesAiClient._form_payload`. `mapGeometry` is the external
`shapely.geometry.mapping`; `inputSerialized` is `serialize_input(input_data)`
for a supplied `input_data` (the serialization routine is opaque to this core),
or `none` when `input_data` is `None`. -/
def formPayload {γ : Type} (jsonLoads : String → Option Json)
    (mapGeometry : γ → Json) (workflow : WorkflowField)
    (parameters : Option Json) (geometry : Option γ)
    (timeRange : Option (Nat × Nat)) (inputSerialized : Option Json)
    (runName : String) : Except PyErr Payload := do
  let ui : UserInput ←
    match inputSerialized with
    | some v => pure (UserInput.json v)
    | none =>
      match geometry, timeRange with
      | some g, some tr =>
          let geojson : Json :=
            .obj [("features",
                    .arr [.obj [("geometry", mapGeometry g), ("type", .str "Feature")]]),
                  ("type", .str "FeatureCollection")]
          match mkSpatioTemporalJson (.date tr.1) (.date tr.2) geojson with
          | .ok v => pure (UserInput.stj v)
          | .error e => throw e
      | _, _ =>
          throw (.valueError "Either `input_data` or `geometry` and `time_range` are required")
  let rci ← mkRunConfigInput jsonLoads runName workflow parameters ui
  .ok ⟨rci.name, rci.workflow, rci.parameters, rci.user_input.asdict⟩

mutual

/-- Python `repr` of a structured value, used when an f-string formats a
non-string parsed body. Containers print their elements with `repr`,
comma-separated. -/
def pyRepr : Json → String
  | .null => "None"
  | .str s => "'" ++ s ++ "'"
  | .num n => toString n
  | .date d => "datetime(" ++ toString d ++ ")"
  | .arr items => "[" ++ pyReprItems items ++ "]"
  | .obj fields => "\x7b" ++ pyReprFields fields ++ "\x7d"

/-- Comma-separated `repr` of list elements. -/
def pyReprItems : List Json → String
  | [] => ""
  | [x] => pyRepr x
  | x :: xs => pyRepr x ++ ", " ++ pyReprItems xs

/-- Comma-separated `repr` of dict entries. -/
def pyReprFields : List (String × Json) → String
  | [] => ""
  | [(k, v)] => "'" ++ k ++ "': " ++ pyRepr v
  | (k, v) :: xs => "'" ++ k ++ "': " ++ pyRepr v ++ ", " ++ pyReprFields xs

end

/-- Python `str` of a value interpolated into an f-string: a `str` prints
itself, any other value prints as its `repr`. -/
def pyStr : Json → String
  | .str s => s
  | v => pyRepr v

/-- `FarmvibesAiClient._request`. `parsed` is the outcome of the JSON parse of
the response body (`none` when `json.loads` raised); `httpOk` is false exactly
when `raise_for_status` raises (a 4xx/5xx status); `errText` is the text of the
underlying `HTTPError` (`f"\x7be\x7d"`). On error the raised message is the
HTTP error text, a period and a space, then the extracted error message. -/
def request (httpOk : Bool) (errText : String) (parsed : Option Json)
    (rawText : String) : Except String Json :=
  let r : Json :=
    match parsed with
    | some v => v
    | none => .str rawText
  if httpOk then .ok r
  else
    let errorMessage : String :=
      match r with
      | .obj fields => pyStr ((lookupField fields "message").getD (.str ""))
      | _ => pyStr r
    .error (errText ++ ". " ++ errorMessage)

/-- The transport contract as the specification claim words it: on 4xx/5xx the
message concatenates the HTTP error text with the body's `message` field when
the parsed body is a mapping containing one, or with the raw parsed body
otherwise — in particular also when the parsed body is a mapping lacking a
`message` key. Stated only to be compared against `request`. -/
def requestClaimed (httpOk : Bool) (errText : String) (parsed : Option Json)
    (rawText : String) : Except String Json :=
  let r : Json :=
    match parsed with
    | some v => v
    | none => .str rawText
  if httpOk then .ok r
  else
    let errorMessage : String :=
      match r with
      | .obj fields =>
          match lookupField fields "message" with
          | some m => pyStr m
          | none => pyStr r
      | _ => pyStr r
    .error (errText ++ ". " ++ errorMessage)

/-- A task's `RunDetails` block as it arrives on the wire (JSON values):
textual timestamps, optional reason, status value string. A `none` time field
models a JSON `null`. -/
structure RawDetails where
  start_time : Option String := none
  submission_time : Option String := none
  end_time : Option String := none
  reason : Option String := none
  status : String := "pending"
deriving DecidableEq, Repr

/-- `RunDetails` after `__post_init__`: textual timestamps parsed into typed
timestamps; the status value string is kept (the dataclass does not coerce it;
the `StrEnum` compares equal to its value string). -/
structure RunDetails where
  start_time : Option Nat := none
  submission_time : Option Nat := none
  end_time : Option Nat := none
  reason : Option String := none
  status : String := "pending"
deriving DecidableEq, Repr

/-- One timestamp field of `RunDetails.__post_init__`: a `str` is parsed (a
parse failure raises), an absent value stays absent. -/
def parseTimeField : Option String → Except PyErr (Option Nat)
  | none => .ok none
  | some s =>
      match parseDate s with
      | some d => .ok (some d)
      | none => .error .parserError

/-- `RunDetails(**v)` including `__post_init__`. -/
def mkRunDetails (raw : RawDetails) : Except PyErr RunDetails :=
  match parseTimeField raw.start_time with
  | .error e => .error e
  | .ok st =>
      match parseTimeField raw.submission_time with
      | .error e => .error e
      | .ok su =>
          match parseTimeField raw.end_time with
          | .error e => .error e
          | .ok en => .ok ⟨st, su, en, raw.reason, raw.status⟩

/-- The sort key of `VibeWorkflowRun._convert_task_details`:
`parse(v["submission_time"]) if v["submission_time"] else datetime.now()` —
a falsy value (null or the empty string) sorts as `now`. -/
def taskSortKey (now : Nat) (raw : RawDetails) : Except PyErr Nat :=
  match raw.submission_time with
  | none => .ok now
  | some s =>
      if s = "" then .ok now
      else
        match parseDate s with
        | some d => .ok d
        | none => .error .parserError

/-- List traversal propagating the first raised exception. -/
def mapExcept {α β : Type} (f : α → Except PyErr β) : List α → Except PyErr (List β)
  | [] => .ok []
  | x :: xs =>
      match f x with
      | .error e => .error e
      | .ok y =>
          match mapExcept f xs with
          | .error e => .error e
          | .ok ys => .ok (y :: ys)

/-- `VibeWorkflowRun._convert_task_details`: sorts the task entries by the
submission-time key (missing timestamps keyed as `now`) and converts each
detail block through `RunDetails(**v)`. Python's `sorted` is modelled by the
stable `List.insertionSort` on the computed keys. -/
def convertTaskDetails (now : Nat) (items : List (String × RawDetails)) :
    Except PyErr (List (String × RunDetails)) :=
  match mapExcept (fun it =>
      match taskSortKey now it.2 with
      | .error e => .error e
      | .ok k => .ok (k, it)) items with
  | .error e => .error e
  | .ok keyed =>
      mapExcept (fun kit =>
          match mkRunDetails kit.2.2 with
          | .error e => .error e
          | .ok rd => .ok (kit.2.1, rd))
        (List.insertionSort (fun a b => a.1 ≤ b.1) keyed)

/-- The mutable cached fields of a `VibeWorkflowRun` handle: `_status`,
`_reason`, `_output` and `_task_details`. The converted output values are a
type parameter `ω` because the STAC conversion is an external collaborator. -/
structure HandleState (ω : Type) where
  status : RunStatus
  reason : String
  output : Option (List (String × ω))
  taskDetails : Option (List (String × RunDetails))
deriving Repr

/-- Handle state immediately after construction: `_status = pending`,
`_reason = ""`, `_output = None`, `_task_details = None`. -/
def initHandle {ω : Type} : HandleState ω :=
  ⟨RunStatus.pending, "", none, none⟩

/-- The `VibeWorkflowRun.status` property: when the cached status is not
finished, one network fetch updates it to the server-reported status; the
cached value is returned. The result is (returned status, new state, whether a
network call was issued). -/
def statusRead {ω : Type} (server : RunStatus) (s : HandleState ω) :
    RunStatus × HandleState ω × Bool :=
  if RunStatus.finished s.status then (s.status, s, false)
  else (server, { s with status := server }, true)

/-- The server's run record as returned by `describe_run` (a `RunConfigUser`):
the details' status and the decoded output payload. -/
structure RunRecord where
  status : RunStatus
  output : List (String × Json)
deriving Repr

/-- The `VibeWorkflowRun.output` property: a cached output is returned without
a fetch; otherwise the full run record is fetched, the cached status is
overwritten with the record's status, and unless that status is exactly `done`
the result is absent and nothing is cached; when it is `done` the converted
payload is cached and returned. `conv` is the external STAC conversion of
`_convert_output`. The result is (value, new state, whether a network call was
issued). -/
def outputRead {ω : Type} (conv : Json → ω) (rec : RunRecord) (s : HandleState ω) :
    Option (List (String × ω)) × HandleState ω × Bool :=
  match s.output with
  | some o => (some o, s, false)
  | none =>
      let s1 := { s with status := rec.status }
      if rec.status ≠ RunStatus.done then (none, s1, true)
      else
        let o := rec.output.map (fun kv => (kv.1, conv kv.2))
        (some o, { s1 with output := some o }, true)

/-- The `VibeWorkflowRun.task_details` property: a cached value is returned
without any fetch; otherwise a `status` read is made, the task details are
fetched and converted, and the conversion is stored as the permanent cache
only when the run was finished. The result also reports the number of network
calls issued. -/
def taskDetailsRead {ω : Type} (serverStatus : RunStatus) (now : Nat)
    (serverDetails : List (String × RawDetails)) (s : HandleState ω) :
    Except PyErr (List (String × RunDetails) × HandleState ω × Nat) :=
  match s.taskDetails with
  | some td => .ok (td, s, 0)
  | none =>
      let (st, s1, made) := statusRead serverStatus s
      let n := if made then 1 else 0
      match convertTaskDetails now serverDetails with
      | .error e => .error e
      | .ok td =>
          if RunStatus.finished st then .ok (td, { s1 with taskDetails := some td }, n + 1)
          else .ok (td, s1, n + 1)

/-- Modelled from the spec: `format_double_escaped` (vibe_core.utils, not part
of the given sources) collapses doubled escape sequences; modelled as
collapsing each doubled backslash into a single one. -/
def collapseEscaped : List Char → List Char
  | '\\' :: '\\' :: rest => '\\' :: collapseEscaped rest
  | c :: rest => c :: collapseEscaped rest
  | [] => []

/-- Modelled from the spec: un-escaping of the server-reported failure reason. -/
def formatDoubleEscaped (s : String) : String :=
  String.mk (collapseEscaped s.toList)

/-- The templated message of `VibeWorkflowRun.reason` that directs the caller
to monitor task updates. -/
def monitorMsg (st : RunStatus) : String :=
  "Workflow run is " ++ st.toStr ++ ". Check VibeWorkflowRun.monitor() for task updates."

/-- The `VibeWorkflowRun.reason` property: reads `status` (one fetch while not
finished), then branches: `done` → fixed success message; `cancelled` or
`cancelling` → templated message naming the status; `running` or `pending` →
the monitor message; every other status falls into the final branch (annotated
`# RunStatus.failed` in the source), which issues one more fetch for
`details.reason` and returns it with doubled escapes collapsed. The result is
(reason, new state, number of network calls issued). -/
def reasonRead {ω : Type} (serverStatus : RunStatus) (serverReason : String)
    (s : HandleState ω) : String × HandleState ω × Nat :=
  let (st, s1, made) := statusRead serverStatus s
  let n := if made then 1 else 0
  if st = RunStatus.done then
    let r := "Workflow run was successful."
    (r, { s1 with reason := r }, n)
  else if st = RunStatus.cancelled ∨ st = RunStatus.cancelling then
    let r := "Workflow run " ++ st.toStr ++ "."
    (r, { s1 with reason := r }, n)
  else if st = RunStatus.running ∨ st = RunStatus.pending then
    let r := monitorMsg st
    (r, { s1 with reason := r }, n)
  else
    let r := formatDoubleEscaped serverReason
    (r, { s1 with reason := r }, n + 1)

/-- `VibeWorkflowRun.wait_s`: the fixed sleep interval of the blocking loop. -/
def waitS : Nat := 10

/-- `VibeWorkflowRun.block_until_complete`: each iteration reads `status`
(consuming the next server response when a network call is made), exits with
the handle when the status is `done` or `failed`, otherwise sleeps `wait_s`
seconds and raises a timeout error when the supplied timeout is exceeded.
`server n` is the status the server reports on the n-th network fetch;
`elapsed` is the idealized wall clock (each sleep advances it by `waitS`);
`fuel` bounds the number of iterations, `none` meaning the loop was still
running when the fuel ran out. -/
def blockLoop {ω : Type} (server : Nat → RunStatus) (timeoutS : Option Nat) :
    Nat → Nat → Nat → HandleState ω → Option (Except String (HandleState ω))
  | 0, _, _, _ => none
  | fuel + 1, calls, elapsed, s =>
      let (st, s1, made) := statusRead (server calls) s
      let calls1 := if made then calls + 1 else calls
      if st = RunStatus.done ∨ st = RunStatus.failed then some (.ok s1)
      else
        let elapsed1 := elapsed + waitS
        match timeoutS with
        | some t =>
            if elapsed1 > t then
              some (.error ("Timeout of " ++ toString t ++
                "s reached while waiting for workflow completion"))
            else blockLoop server timeoutS fuel calls1 elapsed1 s1
        | none => blockLoop server timeoutS fuel calls1 elapsed1 s1

/-- `block_until_complete` entered with a zero clock and no calls made yet. -/
def blockUntilComplete {ω : Type} (server : Nat → RunStatus) (timeoutS : Option Nat)
    (fuel : Nat) (s : HandleState ω) : Option (Except String (HandleState ω)) :=
  blockLoop server timeoutS fuel 0 0 s

/-- The network calls a `FarmvibesAiClient.run` submission can issue, in
order: the disk-space check's metrics query, the run-submission POST, and the
`get_run_by_id` listing that builds the returned handle. -/
inductive NetCall where
  | systemMetrics
  | submitRun
  | listRuns
deriving DecidableEq, Repr

/-- `FarmvibesAiClient.run`: first `verify_disk_space` issues the
system-metrics query, then `_form_payload` builds the payload (raising the
invalid-argument error when neither input mode is complete), and only then the
submission POST and the handle lookup are issued. The result carries the trace
of network calls actually issued. -/
def runSubmit {γ : Type} (jsonLoads : String → Option Json)
    (mapGeometry : γ → Json) (workflow : WorkflowField) (name : String)
    (geometry : Option γ) (timeRange : Option (Nat × Nat))
    (inputSerialized : Option Json) (parameters : Option Json) :
    Except PyErr Payload × List NetCall :=
  let calls := [NetCall.systemMetrics]
  match formPayload jsonLoads mapGeometry workflow parameters geometry timeRange
      inputSerialized name with
  | .error e => (.error e, calls)
  | .ok p => (.ok p, calls ++ [NetCall.submitRun, NetCall.listRuns])

/-- The base64 alphabet. -/
def b64Alphabet : List Char :=
  "ABCDEFGHIJKLMNOPQRSTUVWXYZabcdefghijklmnopqrstuvwxyz0123456789+/".toList

/-- The alphabet character of a sextet. -/
def b64Char (n : Nat) : Char := b64Alphabet.getD n 'A'

/-- The sextet of an alphabet character, `none` for a non-alphabet one. -/
def b64Index (c : Char) : Option Nat := b64Alphabet.indexOf? c

/-- Characters the base64 decoder consumes: the alphabet and padding. All
other characters (in particular newlines) are ignored by the decoder. -/
def isB64Char (c : Char) : Bool := (b64Index c).isSome || c = '='

/-- Base64 of a byte sequence, three bytes to four characters, the final
partial group padded with `=`. -/
def encodeGroups : List Nat → List Char
  | [] => []
  | b1 :: b2 :: b3 :: rest =>
      b64Char (b1 / 4) :: b64Char (b1 % 4 * 16 + b2 / 16) ::
      b64Char (b2 % 16 * 4 + b3 / 64) :: b64Char (b3 % 64) :: encodeGroups rest
  | [b1, b2] => [b64Char (b1 / 4), b64Char (b1 % 4 * 16 + b2 / 16), b64Char (b2 % 16 * 4), '=']
  | [b1] => [b64Char (b1 / 4), b64Char (b1 % 4 * 16), '=', '=']

/-- Base64 decoding of a stream of alphabet/padding characters, four
characters to three bytes; padding is accepted only at the very end. -/
def decodeGroups : List Char → Option (List Nat)
  | [] => some []
  | c1 :: c2 :: c3 :: c4 :: rest =>
      match b64Index c1, b64Index c2 with
      | some s1, some s2 =>
          if c3 = '=' then
            if c4 = '=' ∧ rest = [] then some [s1 * 4 + s2 / 16] else none
          else
            match b64Index c3 with
            | some s3 =>
                if c4 = '=' then
                  if rest = [] then some [s1 * 4 + s2 / 16, s2 % 16 * 16 + s3 / 4] else none
                else
                  match b64Index c4 with
                  | some s4 =>
                      (decodeGroups rest).map
                        (fun bs => (s1 * 4 + s2 / 16) :: (s2 % 16 * 16 + s3 / 4) ::
                          (s3 % 4 * 64 + s4) :: bs)
                  | none => none
            | none => none
      | _, _ => none
  | _ => none

/-- Modelled from the spec: `codecs.encode(..., "base64")`, the text-safe
encoding of the compression transform. The codec writes a newline after the
final group (its 76-column line wrapping inside long outputs is abstracted to
that single trailing newline, which decoding ignores anyway). -/
def b64Encode (bytes : List Nat) : String :=
  match bytes with
  | [] => ""
  | _ => String.mk (encodeGroups bytes) ++ "\n"

/-- Modelled from the spec: `codecs.decode(..., "base64")`; non-alphabet
characters such as newlines are ignored, then groups of four characters are
decoded. -/
def b64Decode (s : String) : Option (List Nat) :=
  decodeGroups (s.toList.filter isB64Char)

/-- Modelled from the spec: `zlib.compress`, a lossless compression of a byte
sequence. Only losslessness is specified, so the compression itself is
modelled as the identity on byte sequences. -/
def zlibCompress (data : List Nat) : List Nat := data

/-- Modelled from the spec: `zlib.decompress`, the inverse of the lossless
compression. -/
def zlibDecompress (data : List Nat) : List Nat := data

/-- `encode` (datamodel.py): base64 of the zlib compression of the payload
text's UTF-8 bytes; the payload text is modelled by its byte sequence. -/
def encode (data : List Nat) : String := b64Encode (zlibCompress data)

/-- `decode` (datamodel.py): zlib decompression of the base64 decoding,
`none` when the text is not decodable. -/
def decode (s : String) : Option (List Nat) := (b64Decode s).map zlibDecompress

/-!
Theorems. Each claim has one main theorem; corrected claims additionally have
a closed counterexample against the claim as stated, and theorems with
hypotheses have a closed witness.
-/

/-- C1 counterexample: a handle observes the finished status `failed` through
a `status` read; a subsequent `output` read (output not yet cached) against a
run record reporting `done` overwrites the cached status with `done`, so the
cached status is modified after a finished value was observed, contrary to
the claim that no operation changes it. -/
theorem statusCache_outputRead_cex :
    RunStatus.finished ((statusRead (ω := Nat) RunStatus.failed initHandle).1) = true ∧
    ((statusRead (ω := Nat) RunStatus.failed initHandle).2.1).status = RunStatus.failed ∧
    ((outputRead (fun _ => 0) ⟨RunStatus.done, []⟩
        ((statusRead (ω := Nat) RunStatus.failed initHandle).2.1)).2.1).status =
      RunStatus.done ∧
    RunStatus.done ≠ RunStatus.failed :=
  ⟨rfl, rfl, rfl, by decide⟩

/-- C1 (amended): once the cached status is finished, every `status` read
issues no network call, returns that same value and leaves the handle
unchanged, and an `output` read whose output is already cached likewise issues
no call and changes nothing — but an `output` read made while the output is
not yet cached re-fetches the run record and overwrites the cached status
(see the counterexample). -/
theorem statusCache_immutable_after_finished {ω : Type} (s : HandleState ω)
    (h : RunStatus.finished s.status = true) :
    (∀ server : RunStatus, statusRead server s = (s.status, s, false)) ∧
    (∀ (conv : Json → ω) (rec : RunRecord) (o : List (String × ω)),
      s.output = some o → outputRead conv rec s = (some o, s, false)) := by
  constructor
  · intro server
    simp [statusRead, h]
  · intro conv rec o ho
    simp [outputRead, ho]

/-- Witness for C1's amended theorem at a concrete finished handle. -/
theorem statusCache_immutable_after_finished_witness :
    statusRead (ω := Nat) RunStatus.running ⟨RunStatus.done, "", some [("a", 1)], none⟩ =
      (RunStatus.done, ⟨RunStatus.done, "", some [("a", 1)], none⟩, false) ∧
    outputRead (fun _ => 0) ⟨RunStatus.failed, []⟩
        ⟨RunStatus.done, "", some [("a", 1)], none⟩ =
      (some [("a", 1)], ⟨RunStatus.done, "", some [("a", 1)], none⟩, false) :=
  ⟨(statusCache_immutable_after_finished
      ⟨RunStatus.done, "", some [("a", 1)], none⟩ rfl).1 RunStatus.running,
   (statusCache_immutable_after_finished
      ⟨RunStatus.done, "", some [("a", 1)], none⟩ rfl).2 (fun _ => 0)
      ⟨RunStatus.failed, []⟩ _ rfl⟩

/-- C4: an `output` read made while the output is not yet cached fetches the
run record; when the fetched status is anything other than exactly `done`
(including the finished statuses `failed` and `cancelled`) it returns an
absent value and caches nothing, and when the fetched status is exactly `done`
it converts the record's output payload, caches it and returns it. -/
theorem outputRead_done_gate {ω : Type} (conv : Json → ω) (rec : RunRecord)
    (s : HandleState ω) (h : s.output = none) :
    (rec.status ≠ RunStatus.done →
      outputRead conv rec s = (none, { s with status := rec.status }, true)) ∧
    (rec.status = RunStatus.done →
      outputRead conv rec s =
        (some (rec.output.map (fun kv => (kv.1, conv kv.2))),
         { s with status := rec.status,
                  output := some (rec.output.map (fun kv => (kv.1, conv kv.2))) }, true)) := by
  constructor <;> intro hst <;> simp [outputRead, h, hst]

/-- Witness for C4 at a `failed` record (absent, uncached) and a `done`
record (converted, cached, returned). -/
theorem outputRead_done_gate_witness :
    outputRead (ω := Json) (fun v => v) ⟨RunStatus.failed, [("res", .num 1)]⟩ initHandle =
      (none, ⟨RunStatus.failed, "", none, none⟩, true) ∧
    outputRead (ω := Json) (fun v => v) ⟨RunStatus.done, [("res", .num 1)]⟩ initHandle =
      (some [("res", .num 1)], ⟨RunStatus.done, "", some [("res", .num 1)], none⟩, true) :=
  ⟨(outputRead_done_gate _ _ _ rfl).1 (by decide),
   (outputRead_done_gate _ _ _ rfl).2 rfl⟩

/-- C6: the code slip pinned. A `reason` read on a run whose status is
`queued` falls into the branch the source annotates `# RunStatus.failed`: it
issues a second network fetch and returns the server's failure-reason field
(unescaped) instead of the templated monitor message the claim (and the
source's own branch comment) prescribe for `queued`. -/
theorem reason_queued_bug :
    reasonRead (ω := Nat) RunStatus.queued "boom" initHandle =
      ("boom", ⟨RunStatus.queued, "boom", none, none⟩, 2) ∧
    ("boom" : String) ≠ monitorMsg RunStatus.queued ∧
    monitorMsg RunStatus.queued =
      "Workflow run is queued. Check VibeWorkflowRun.monitor() for task updates." :=
  ⟨rfl, by decide, rfl⟩

/-- C7 counterexample: with neither `input_data` nor geometry/time range, the
submission raises the invalid-argument error, but only after the disk-space
check's system-metrics query — the network-call trace at the raise is not
empty, contrary to the claim that the error precedes any network call. -/
theorem runSubmit_invalidArg_cex :
    runSubmit (γ := Unit) (fun _ => none) (fun _ => Json.null) (.text "wf") "r"
        none none none none =
      (.error (.valueError "Either `input_data` or `geometry` and `time_range` are required"),
       [NetCall.systemMetrics]) ∧
    ([NetCall.systemMetrics] : List NetCall) ≠ [] :=
  ⟨rfl, by decide⟩

/-- C7 (amended): whenever the caller supplies neither `input_data` nor a
complete geometry/time-range pair, the invalid-argument error is raised
before the run-submission POST (and before the handle lookup): the trace of
issued calls is exactly the disk-space check's metrics query. -/
theorem runSubmit_invalidArg_before_submission {γ : Type}
    (jsonLoads : String → Option Json) (mapGeometry : γ → Json)
    (workflow : WorkflowField) (name : String) (geometry : Option γ)
    (timeRange : Option (Nat × Nat)) (parameters : Option Json)
    (h : geometry = none ∨ timeRange = none) :
    runSubmit jsonLoads mapGeometry workflow name geometry timeRange none parameters =
      (.error (.valueError "Either `input_data` or `geometry` and `time_range` are required"),
       [NetCall.systemMetrics]) ∧
    NetCall.submitRun ∉
      (runSubmit jsonLoads mapGeometry workflow name geometry timeRange none parameters).2 := by
  have heq : runSubmit jsonLoads mapGeometry workflow name geometry timeRange none parameters =
      (.error (.valueError "Either `input_data` or `geometry` and `time_range` are required"),
       [NetCall.systemMetrics]) := by
    rcases h with h | h
    · subst h
      rfl
    · subst h
      cases geometry <;> rfl
  refine ⟨heq, ?_⟩
  rw [heq]
  decide

/-- Witness for C7's amended theorem with a time range but no geometry. -/
theorem runSubmit_invalidArg_before_submission_witness :
    runSubmit (γ := Unit) (fun _ => none) (fun _ => Json.null) (.text "wf") "r"
        none (some (1, 2)) none none =
      (.error (.valueError "Either `input_data` or `geometry` and `time_range` are required"),
       [NetCall.systemMetrics]) ∧
    NetCall.submitRun ∉
      (runSubmit (γ := Unit) (fun _ => none) (fun _ => Json.null) (.text "wf") "r"
        none (some (1, 2)) none none).2 :=
  runSubmit_invalidArg_before_submission _ _ _ _ _ _ _ (Or.inl rfl)

/-- C2 counterexample: when the serialized `input_data` happens to be a
mapping with exactly the envelope keys, the built descriptor's user-input
field is not that serialized value: the descriptor constructor coerces it
into a spatio-temporal envelope, parsing the textual dates into typed
timestamps. -/
theorem formPayload_inputData_coercion_cex :
    formPayload (γ := Unit) (fun _ => none) (fun _ => Json.null) (.text "wf") none none none
        (some (.obj [("start_date", .str "20200101"), ("end_date", .str "20200102"),
                     ("geojson", .obj [])])) "r" =
      .ok ⟨"r", .text "wf", none,
           .obj [("start_date", .date 20200101), ("end_date", .date 20200102),
                 ("geojson", .obj [])]⟩ ∧
    Json.obj [("start_date", .date 20200101), ("end_date", .date 20200102),
              ("geojson", .obj [])] ≠
      Json.obj [("start_date", .str "20200101"), ("end_date", .str "20200102"),
                ("geojson", .obj [])] :=
  ⟨rfl, by simp⟩

/-- C2 (amended): with `input_data` supplied, the user-input field is the
serialized `input_data` as normalized by the descriptor constructor
(identical to the serialized value except when that value is a mapping with
exactly the envelope keys, which is coerced into an envelope), regardless of
geometry/time range; with `input_data` absent and either geometry or time
range absent, the call fails with the invalid-argument error; with both
present, the user-input field is the envelope built from the time range and a
single-feature FeatureCollection wrapping the mapped geometry. -/
theorem formPayload_userInput_cases {γ : Type} (jsonLoads : String → Option Json)
    (mapGeometry : γ → Json) (workflow : WorkflowField) (parameters : Option Json)
    (runName : String) :
    (∀ (ser : Json) (geometry : Option γ) (timeRange : Option (Nat × Nat)),
      formPayload jsonLoads mapGeometry workflow parameters geometry timeRange
          (some ser) runName =
        (coerceUserInput (.json ser)).map
          (fun ui => ⟨runName, normWorkflow jsonLoads workflow, parameters, ui.asdict⟩)) ∧
    (∀ (geometry : Option γ) (timeRange : Option (Nat × Nat)),
      (geometry = none ∨ timeRange = none) →
      formPayload jsonLoads mapGeometry workflow parameters geometry timeRange none runName =
        .error (.valueError "Either `input_data` or `geometry` and `time_range` are required")) ∧
    (∀ (g : γ) (tr : Nat × Nat),
      formPayload jsonLoads mapGeometry workflow parameters (some g) (some tr) none runName =
        .ok ⟨runName, normWorkflow jsonLoads workflow, parameters,
             .obj [("start_date", .date tr.1), ("end_date", .date tr.2),
                   ("geojson", .obj [("features",
                       .arr [.obj [("geometry", mapGeometry g), ("type", .str "Feature")]]),
                     ("type", .str "FeatureCollection")])]⟩) := by
  refine ⟨?_, ?_, ?_⟩
  · intro ser geometry timeRange
    simp only [formPayload, mkRunConfigInput, pure_bind]
    cases h : coerceUserInput (.json ser) <;> rfl
  · intro geometry timeRange h
    rcases h with h | h
    · subst h
      rfl
    · subst h
      cases geometry <;> rfl
  · intro g tr
    rfl

/-- Witness for C2's amended theorem: the three modes at concrete inputs. -/
theorem formPayload_userInput_cases_witness :
    formPayload (γ := Unit) (fun _ => none) (fun _ => Json.null) (.text "wf") none
        (some ()) (some (3, 4)) (some (.arr [.num 7])) "r" =
      .ok ⟨"r", .text "wf", none, .arr [.num 7]⟩ ∧
    formPayload (γ := Unit) (fun _ => none) (fun _ => Json.null) (.text "wf") none
        (some ()) none none "r" =
      .error (.valueError "Either `input_data` or `geometry` and `time_range` are required") ∧
    formPayload (γ := Unit) (fun _ => none) (fun _ => Json.null) (.text "wf") none
        (some ()) (some (3, 4)) none "r" =
      .ok ⟨"r", .text "wf", none,
           .obj [("start_date", .date 3), ("end_date", .date 4),
                 ("geojson", .obj [("features",
                     .arr [.obj [("geometry", Json.null), ("type", .str "Feature")]]),
                   ("type", .str "FeatureCollection")])]⟩ := by
  refine ⟨?_, ?_, ?_⟩
  · exact (formPayload_userInput_cases (γ := Unit) (fun _ => none) (fun _ => Json.null)
      (.text "wf") none "r").1 (.arr [.num 7]) (some ()) (some (3, 4))
  · exact (formPayload_userInput_cases (γ := Unit) (fun _ => none) (fun _ => Json.null)
      (.text "wf") none "r").2.1 (some ()) none (Or.inr rfl)
  · exact (formPayload_userInput_cases (γ := Unit) (fun _ => none) (fun _ => Json.null)
      (.text "wf") none "r").2.2 () (3, 4)

/-- C10: the descriptor constructor's user-input coercion. A structured
mapping with exactly the keys start_date, end_date, geojson is silently
coerced into a spatio-temporal envelope value, its textual dates parsed into
typed timestamps; a mapping with any other key set is left unchanged. -/
theorem userInput_exact_keys_coercion :
    (∀ (fields : List (String × Json)) (sdT edT : String) (gj : Json) (d1 d2 : Nat),
      lookupField fields "start_date" = some (.str sdT) →
      lookupField fields "end_date" = some (.str edT) →
      lookupField fields "geojson" = some gj →
      fields.length = 3 →
      parseDate sdT = some d1 → parseDate edT = some d2 →
      coerceUserInput (.json (.obj fields)) = .ok (.stj ⟨.date d1, .date d2, gj⟩)) ∧
    (∀ fields : List (String × Json),
      (lookupField fields "start_date" = none ∨ lookupField fields "end_date" = none ∨
       lookupField fields "geojson" = none ∨ fields.length ≠ 3) →
      coerceUserInput (.json (.obj fields)) = .ok (.json (.obj fields))) := by
  constructor
  · intro fields sdT edT gj d1 d2 h1 h2 h3 hlen hd1 hd2
    simp only [coerceUserInput, h1, h2, h3, hlen, mkSpatioTemporalJson, stjPostField,
      hd1, hd2, if_true, reduceIte]
    rfl
  · intro fields h
    rcases h with h | h | h | h
    · simp [coerceUserInput, h]
    · cases h1 : lookupField fields "start_date" <;>
        simp [coerceUserInput, h1, h]
    · cases h1 : lookupField fields "start_date" <;>
        cases h2 : lookupField fields "end_date" <;>
          simp [coerceUserInput, h1, h2, h]
    · cases h1 : lookupField fields "start_date" <;>
        cases h2 : lookupField fields "end_date" <;>
          cases h3 : lookupField fields "geojson" <;>
            simp [coerceUserInput, h1, h2, h3, h]

/-- Witness for C10: a scrambled-order exact-key mapping is coerced with its
dates parsed; a mapping missing the end_date key is left unchanged. -/
theorem userInput_exact_keys_coercion_witness :
    coerceUserInput (.json (.obj [("end_date", .str "20200102"), ("geojson", .null),
        ("start_date", .str "20200101")])) =
      .ok (.stj ⟨.date 20200101, .date 20200102, .null⟩) ∧
    coerceUserInput (.json (.obj [("start_date", .str "20200101")])) =
      .ok (.json (.obj [("start_date", .str "20200101")])) :=
  ⟨userInput_exact_keys_coercion.1 _ "20200101" "20200102" .null _ _
      rfl rfl rfl rfl rfl rfl,
   userInput_exact_keys_coercion.2 _ (Or.inr (Or.inl rfl))⟩

/-- C5 counterexample: for a 4xx response whose parsed body is a mapping that
lacks a `message` key, the transport concatenates the HTTP error text with the
empty string (`r.get("message", "")`), not with the raw parsed body as the
claim states; the claim-worded variant `requestClaimed` disagrees with the
embedded `request` at this input. -/
theorem request_message_missing_cex :
    request false "404 Client Error" (some (.obj [("detail", .str "x")])) "body" =
      .error "404 Client Error. " ∧
    requestClaimed false "404 Client Error" (some (.obj [("detail", .str "x")])) "body" =
      .error ("404 Client Error" ++ ". " ++ pyStr (.obj [("detail", .str "x")])) ∧
    pyStr (.obj [("detail", .str "x")]) = "\x7b'detail': 'x'\x7d" ∧
    request false "404 Client Error" (some (.obj [("detail", .str "x")])) "body" ≠
      requestClaimed false "404 Client Error" (some (.obj [("detail", .str "x")])) "body" := by
  have hreq : request false "404 Client Error" (some (.obj [("detail", .str "x")])) "body" =
      .error "404 Client Error. " := by
    simp [request, lookupField, pyStr]
  have hp : pyStr (.obj [("detail", .str "x")]) = "\x7b'detail': 'x'\x7d" := by
    simp [pyStr, pyRepr, pyReprFields]
  refine ⟨hreq, rfl, hp, ?_⟩
  rw [hreq, requestClaimed]
  simp [lookupField, hp]

/-- C5 (amended): the transport's error-message assembly. On a 2xx response
the parsed body is returned as-is, a body that fails structured parsing
carried forward as the raw text; on 4xx/5xx the raised message concatenates
the HTTP error text with the body's `message` field when the parsed body is a
mapping containing one, with the empty string when the parsed body is a
mapping lacking one, and with the raw parsed body otherwise. -/
theorem request_error_message_spec (errText rawText : String) :
    (∀ parsed : Option Json,
      request true errText parsed rawText = .ok (parsed.getD (.str rawText))) ∧
    (∀ (fields : List (String × Json)) (m : Json),
      lookupField fields "message" = some m →
      request false errText (some (.obj fields)) rawText =
        .error (errText ++ ". " ++ pyStr m)) ∧
    (∀ fields : List (String × Json),
      lookupField fields "message" = none →
      request false errText (some (.obj fields)) rawText =
        .error (errText ++ ". ")) ∧
    (request false errText none rawText = .error (errText ++ ". " ++ rawText)) ∧
    (∀ v : Json, (∀ fields, v ≠ .obj fields) →
      request false errText (some v) rawText = .error (errText ++ ". " ++ pyStr v)) := by
  refine ⟨?_, ?_, ?_, ?_, ?_⟩
  · intro parsed
    cases parsed <;> rfl
  · intro fields m h
    simp [request, h]
  · intro fields h
    simp [request, h, pyStr]
  · rfl
  · intro v hv
    cases v with
    | obj fields => exact absurd rfl (hv fields)
    | null => rfl
    | str s => rfl
    | num n => rfl
    | date d => rfl
    | arr items => rfl

/-- Witness for C5's amended theorem: each branch at concrete inputs. -/
theorem request_error_message_spec_witness :
    request true "E" (some (.arr [])) "raw" = .ok (.arr []) ∧
    request false "E" (some (.obj [("message", .str "bad")])) "raw" = .error "E. bad" ∧
    request false "E" (some (.obj [("detail", .str "x")])) "raw" = .error "E. " ∧
    request false "E" none "raw" = .error "E. raw" ∧
    request false "E" (some (.str "zz")) "raw" = .error "E. zz" := by
  refine ⟨?_, ?_, ?_, ?_, ?_⟩
  · exact (request_error_message_spec "E" "raw").1 (some (.arr []))
  · have h := (request_error_message_spec "E" "raw").2.1 [("message", .str "bad")]
      (.str "bad") rfl
    rw [h]
    rfl
  · have h := (request_error_message_spec "E" "raw").2.2.1 [("detail", .str "x")] rfl
    rw [h]
    rfl
  · have h := (request_error_message_spec "E" "raw").2.2.2.1
    rw [h]
    rfl
  · have h := (request_error_message_spec "E" "raw").2.2.2.2 (.str "zz") (by intro f h; cases h)
    rw [h]
    rfl

lemma blockLoop_cancelled_not_ok {ω : Type} (server : Nat → RunStatus)
    (timeoutS : Option Nat) :
    ∀ (fuel calls elapsed : Nat) (s : HandleState ω), s.status = RunStatus.cancelled →
      ∀ r : HandleState ω, blockLoop server timeoutS fuel calls elapsed s ≠ some (.ok r) := by
  intro fuel
  induction fuel with
  | zero =>
      intro calls elapsed s hs r
      simp [blockLoop]
  | succ n ih =>
      intro calls elapsed s hs r
      have hfin : RunStatus.finished s.status = true := by
        rw [hs]
        rfl
      have hsr : statusRead (server calls) s = (s.status, s, false) := by
        simp [statusRead, hfin]
      have hne : ¬(s.status = RunStatus.done ∨ s.status = RunStatus.failed) := by
        rw [hs]
        decide
      rw [blockLoop, hsr]
      simp only [hne, if_false]
      cases timeoutS with
      | none => exact ih calls (elapsed + waitS) s hs r
      | some t =>
          by_cases ht : elapsed + waitS > t
          · simp [ht]
          · simp only [ht, if_false]
            exact ih calls (elapsed + waitS) s hs r

/-- C3: the blocking wait. An iteration whose `status` read yields `done` or
`failed` exits immediately, returning the handle; an iteration whose read
yields anything else (including `cancelled`) does not exit — when a timeout is
supplied and the elapsed time after the sleep exceeds it, the timeout error is
raised; and once the cached status is `cancelled` the loop can never return
the handle, no matter how long it runs (it only times out). -/
theorem blockUntilComplete_spec {ω : Type} (server : Nat → RunStatus)
    (timeoutS : Option Nat) (fuel calls elapsed : Nat) (s : HandleState ω) :
    (((statusRead (server calls) s).1 = RunStatus.done ∨
      (statusRead (server calls) s).1 = RunStatus.failed) →
      blockLoop server timeoutS (fuel + 1) calls elapsed s =
        some (.ok (statusRead (server calls) s).2.1)) ∧
    (∀ t : Nat, timeoutS = some t →
      ¬((statusRead (server calls) s).1 = RunStatus.done ∨
        (statusRead (server calls) s).1 = RunStatus.failed) →
      elapsed + waitS > t →
      blockLoop server timeoutS (fuel + 1) calls elapsed s =
        some (.error ("Timeout of " ++ toString t ++
          "s reached while waiting for workflow completion"))) ∧
    (s.status = RunStatus.cancelled →
      ∀ r : HandleState ω, blockLoop server timeoutS fuel calls elapsed s ≠ some (.ok r)) ∧
    (timeoutS = none →
      ¬((statusRead (server calls) s).1 = RunStatus.done ∨
        (statusRead (server calls) s).1 = RunStatus.failed) →
      blockLoop server timeoutS (fuel + 1) calls elapsed s =
        blockLoop server timeoutS fuel
          (if (statusRead (server calls) s).2.2 then calls + 1 else calls)
          (elapsed + waitS) (statusRead (server calls) s).2.1) := by
  refine ⟨?_, ?_, ?_, ?_⟩
  · intro h
    rw [blockLoop]
    rcases hsr : statusRead (server calls) s with ⟨st, s1, made⟩
    rw [hsr] at h
    simp only at h
    simp only [h, if_true]
  · intro t ht h htime
    subst ht
    rw [blockLoop]
    rcases hsr : statusRead (server calls) s with ⟨st, s1, made⟩
    rw [hsr] at h
    simp only at h
    simp only [h, if_false, htime, if_true]
  · intro hs r
    exact blockLoop_cancelled_not_ok server timeoutS fuel calls elapsed s hs r
  · intro htn h
    subst htn
    rw [blockLoop]
    rcases hsr : statusRead (server calls) s with ⟨st, s1, made⟩
    rw [hsr] at h
    simp only at h
    simp only [h, if_false]

/-- Witness for C3 at concrete runs: a `done` run exits with the handle; a
`running` run with an exceeded timeout raises the timeout error; a `cancelled`
handle never yields the handle. -/
theorem blockUntilComplete_spec_witness :
    blockLoop (ω := Nat) (fun _ => RunStatus.done) none 1 0 0 initHandle =
      some (.ok ⟨RunStatus.done, "", none, none⟩) ∧
    blockLoop (ω := Nat) (fun _ => RunStatus.running) (some 5) 1 0 0 initHandle =
      some (.error "Timeout of 5s reached while waiting for workflow completion") ∧
    blockLoop (ω := Nat) (fun _ => RunStatus.running) none 3 0 0
        ⟨RunStatus.cancelled, "", none, none⟩ ≠
      some (.ok ⟨RunStatus.cancelled, "", none, none⟩) := by
  refine ⟨?_, ?_, ?_⟩
  · exact (blockUntilComplete_spec (ω := Nat) (fun _ => RunStatus.done) none 0 0 0
      initHandle).1 (Or.inl rfl)
  · have h := (blockUntilComplete_spec (ω := Nat) (fun _ => RunStatus.running) (some 5) 0 0 0
      initHandle).2.1 5 rfl (by decide) (by decide)
    rw [h]
    rfl
  · exact (blockUntilComplete_spec (ω := Nat) (fun _ => RunStatus.running) none 3 0 0
      ⟨RunStatus.cancelled, "", none, none⟩).2.2.1 rfl ⟨RunStatus.cancelled, "", none, none⟩

lemma mapExcept_forall2 {α β : Type} {f : α → Except PyErr β} :
    ∀ {l : List α} {r : List β}, mapExcept f l = .ok r →
      List.Forall₂ (fun x y => f x = .ok y) l r := by
  intro l
  induction l with
  | nil =>
      intro r h
      simp only [mapExcept] at h
      injection h with h
      subst h
      exact List.Forall₂.nil
  | cons x xs ih =>
      intro r h
      simp only [mapExcept] at h
      cases hfx : f x with
      | error e =>
          rw [hfx] at h
          cases h
      | ok y =>
          rw [hfx] at h
          cases hxs : mapExcept f xs with
          | error e =>
              rw [hxs] at h
              cases h
          | ok ys =>
              rw [hxs] at h
              injection h with h
              subst h
              exact List.Forall₂.cons hfx (ih hxs)

lemma forall2_mem_right {α β : Type} {P : α → β → Prop} :
    ∀ {l : List α} {r : List β}, List.Forall₂ P l r →
      ∀ {y : β}, y ∈ r → ∃ x ∈ l, P x y := by
  intro l r h
  induction h with
  | nil =>
      intro y hy
      cases hy
  | @cons a b l₁ r₁ hp _ ih =>
      intro y hy
      rcases List.mem_cons.mp hy with hy | hy
      · subst hy
        exact ⟨a, List.mem_cons_self a l₁, hp⟩
      · rcases ih hy with ⟨x, hx, hpx⟩
        exact ⟨x, List.mem_cons_of_mem a hx, hpx⟩

lemma forall2_pairwise {α β : Type} {P : α → β → Prop} {R : α → α → Prop}
    {S : β → β → Prop} :
    ∀ {l : List α} {r : List β}, List.Forall₂ P l r → List.Pairwise R l →
      (∀ a b a' b', a ∈ l → b ∈ l → P a a' → P b b' → R a b → S a' b') →
      List.Pairwise S r := by
  intro l r hf
  induction hf with
  | nil =>
      intro _ _
      exact List.Pairwise.nil
  | @cons a b l₁ r₁ hp hrest ih =>
      intro hpw himp
      rcases List.pairwise_cons.mp hpw with ⟨hR, hpw'⟩
      refine List.Pairwise.cons ?_ (ih hpw' ?_)
      · intro y hy
        rcases forall2_mem_right hrest hy with ⟨x, hx, hpx⟩
        exact himp a x b y (List.mem_cons_self a l₁) (List.mem_cons_of_mem a hx)
          hp hpx (hR x hx)
      · intro u v u' v' hu hv hpu hpv hruv
        exact himp u v u' v' (List.mem_cons_of_mem a hu) (List.mem_cons_of_mem a hv)
          hpu hpv hruv

lemma mkRunDetails_submission {raw : RawDetails} {rd : RunDetails}
    (h : mkRunDetails raw = .ok rd) :
    parseTimeField raw.submission_time = .ok rd.submission_time := by
  unfold mkRunDetails at h
  cases h1 : parseTimeField raw.start_time with
  | error e =>
      rw [h1] at h
      cases h
  | ok st =>
      rw [h1] at h
      cases h2 : parseTimeField raw.submission_time with
      | error e =>
          rw [h2] at h
          cases h
      | ok su =>
          rw [h2] at h
          cases h3 : parseTimeField raw.end_time with
          | error e =>
              rw [h3] at h
              cases h
          | ok en =>
              rw [h3] at h
              injection h with h
              subst h
              rfl

lemma taskKey_facts {now : Nat} {raw : RawDetails} {k : Nat} {rd : RunDetails}
    (hk : taskSortKey now raw = .ok k) (hc : mkRunDetails raw = .ok rd) :
    rd.submission_time.getD now = k ∧
    (rd.submission_time = none → k = now) ∧
    (∀ d, rd.submission_time = some d →
      ∃ ts, raw.submission_time = some ts ∧ parseDate ts = some d ∧ k = d) := by
  have hsub := mkRunDetails_submission hc
  cases hraw : raw.submission_time with
  | none =>
      rw [hraw] at hsub
      simp only [parseTimeField] at hsub
      injection hsub with hsub
      simp only [taskSortKey, hraw] at hk
      injection hk with hk
      subst hk
      refine ⟨by rw [← hsub]; rfl, fun _ => rfl, ?_⟩
      intro d hd
      rw [← hsub] at hd
      cases hd
  | some ts =>
      rw [hraw] at hsub
      simp only [taskSortKey, hraw] at hk
      by_cases hts : ts = ""
      · subst hts
        have hptf : parseTimeField (some "") = .error .parserError := rfl
        rw [hptf] at hsub
        cases hsub
      · simp only [hts, if_false] at hk
        cases hpd : parseDate ts with
        | none =>
            rw [hpd] at hk
            cases hk
        | some d =>
            rw [hpd] at hk
            injection hk with hk
            subst hk
            simp only [parseTimeField, hpd] at hsub
            injection hsub with hsub
            refine ⟨by rw [← hsub]; rfl, ?_, ?_⟩
            · intro hnone
              rw [← hsub] at hnone
              cases hnone
            · intro d' hd'
              rw [← hsub] at hd'
              injection hd' with hd'
              subst hd'
              exact ⟨ts, rfl, hpd, rfl⟩

lemma convertTaskDetails_props (now : Nat) (items : List (String × RawDetails))
    (r : List (String × RunDetails)) (h : convertTaskDetails now items = .ok r)
    (hpast : ∀ it ∈ items, ∀ ts, it.2.submission_time = some ts →
        ∀ d, parseDate ts = some d → d < now) :
    List.Pairwise (fun a b : String × RunDetails =>
      a.2.submission_time.getD now ≤ b.2.submission_time.getD now) r ∧
    List.Pairwise (fun a b : String × RunDetails =>
      a.2.submission_time = none → b.2.submission_time = none) r := by
  unfold convertTaskDetails at h
  cases h1 : mapExcept (fun it =>
      match taskSortKey now it.2 with
      | .error e => .error e
      | .ok k => .ok (k, it)) items with
  | error e =>
      rw [h1] at h
      cases h
  | ok keyed =>
      rw [h1] at h
      have hf1 := mapExcept_forall2 h1
      have hf2 := mapExcept_forall2 h
      have hmem : ∀ kit ∈ List.insertionSort
          (fun a b : Nat × (String × RawDetails) => a.1 ≤ b.1) keyed,
          taskSortKey now kit.2.2 = .ok kit.1 ∧ kit.2 ∈ items := by
        intro kit hkit
        have hk2 : kit ∈ keyed := (List.perm_insertionSort _ keyed).mem_iff.mp hkit
        rcases forall2_mem_right hf1 hk2 with ⟨x, hx, hP⟩
        cases hk : taskSortKey now x.2 with
        | error e =>
            rw [hk] at hP
            cases hP
        | ok k =>
            rw [hk] at hP
            injection hP with hP
            subst hP
            exact ⟨hk, hx⟩
      have hsorted : List.Pairwise
          (fun a b : Nat × (String × RawDetails) => a.1 ≤ b.1)
          (List.insertionSort (fun a b : Nat × (String × RawDetails) => a.1 ≤ b.1) keyed) := by
        haveI ht : IsTotal (Nat × (String × RawDetails)) (fun a b => a.1 ≤ b.1) :=
          ⟨fun a b => Nat.le_total a.1 b.1⟩
        haveI htr : IsTrans (Nat × (String × RawDetails)) (fun a b => a.1 ≤ b.1) :=
          ⟨fun a b c hab hbc => Nat.le_trans hab hbc⟩
        exact List.sorted_insertionSort _ keyed
      constructor
      · refine forall2_pairwise hf2 hsorted ?_
        intro a b a' b' ha hb hPa hPb hR
        obtain ⟨hka, hmema⟩ := hmem a ha
        obtain ⟨hkb, hmemb⟩ := hmem b hb
        cases hca : mkRunDetails a.2.2 with
        | error e =>
            rw [hca] at hPa
            cases hPa
        | ok rda =>
            rw [hca] at hPa
            injection hPa with hPa
            cases hcb : mkRunDetails b.2.2 with
            | error e =>
                rw [hcb] at hPb
                cases hPb
            | ok rdb =>
                rw [hcb] at hPb
                injection hPb with hPb
                subst hPa
                subst hPb
                have fa := (taskKey_facts hka hca).1
                have fb := (taskKey_facts hkb hcb).1
                show rda.submission_time.getD now ≤ rdb.submission_time.getD now
                rw [fa, fb]
                exact hR
      · refine forall2_pairwise hf2 hsorted ?_
        intro a b a' b' ha hb hPa hPb hR
        obtain ⟨hka, hmema⟩ := hmem a ha
        obtain ⟨hkb, hmemb⟩ := hmem b hb
        cases hca : mkRunDetails a.2.2 with
        | error e =>
            rw [hca] at hPa
            cases hPa
        | ok rda =>
            rw [hca] at hPa
            injection hPa with hPa
            cases hcb : mkRunDetails b.2.2 with
            | error e =>
                rw [hcb] at hPb
                cases hPb
            | ok rdb =>
                rw [hcb] at hPb
                injection hPb with hPb
                subst hPa
                subst hPb
                intro hnone
                have hka_now : a.1 = now := (taskKey_facts hka hca).2.1 hnone
                show rdb.submission_time = none
                cases hbs : rdb.submission_time with
                | none => rfl
                | some d =>
                    rcases (taskKey_facts hkb hcb).2.2 d hbs with ⟨ts, hts, hpd, hkd⟩
                    have hlt : d < now := hpast b.2 hmemb ts hts d hpd
                    rw [hka_now, hkd] at hR
                    omega

/-- C8 counterexample: a task-details read against a server report in which
one task has no submission timestamp and another has a submission timestamp in
the future of the handle's wall clock (`now = 100` vs timestamp 300). The
absent-timestamp entry is keyed as `now` and therefore sorts *before* the
present-timestamp entry, contrary to the claim that absent entries are placed
after all present ones. -/
theorem taskDetails_future_timestamp_cex :
    taskDetailsRead (ω := Nat) RunStatus.running 100
        [("a", { submission_time := none }), ("b", { submission_time := some "300" })]
        initHandle =
      .ok ([("a", { submission_time := none }),
            ("b", { submission_time := some 300 })],
           ⟨RunStatus.running, "", none, none⟩, 2) ∧
    ([("a", ({ submission_time := none } : RunDetails)),
      ("b", { submission_time := some 300 })].map
        (fun it => it.2.submission_time)) = [none, some 300] :=
  ⟨rfl, rfl⟩

/-- C8 (amended): a `task_details` read taken while nothing is cached returns
the converted entries ordered by ascending submission timestamp, an absent
timestamp keyed as the current wall-clock time `now`; consequently, whenever
every present submission timestamp is earlier than `now`, every
absent-timestamp entry is placed after all present-timestamp entries. -/
theorem taskDetails_sorted_spec {ω : Type} (serverStatus : RunStatus) (now : Nat)
    (serverDetails : List (String × RawDetails)) (s : HandleState ω)
    (hcache : s.taskDetails = none)
    (r : List (String × RunDetails)) (st : HandleState ω) (n : Nat)
    (h : taskDetailsRead serverStatus now serverDetails s = .ok (r, st, n))
    (hpast : ∀ it ∈ serverDetails, ∀ ts, it.2.submission_time = some ts →
        ∀ d, parseDate ts = some d → d < now) :
    List.Pairwise (fun a b : String × RunDetails =>
      a.2.submission_time.getD now ≤ b.2.submission_time.getD now) r ∧
    List.Pairwise (fun a b : String × RunDetails =>
      a.2.submission_time = none → b.2.submission_time = none) r := by
  have hr : convertTaskDetails now serverDetails = .ok r := by
    unfold taskDetailsRead at h
    rw [hcache] at h
    rcases hsr : statusRead serverStatus s with ⟨st', s1, made⟩
    rw [hsr] at h
    simp only at h
    cases hct : convertTaskDetails now serverDetails with
    | error e =>
        rw [hct] at h
        cases h
    | ok td =>
        rw [hct] at h
        split at h
        · simp at h
        · rename_i td2 heq
          injection heq with heq
          subst heq
          split at h <;>
            simp only [Except.ok.injEq, Prod.mk.injEq] at h <;>
            rw [h.1]
  exact convertTaskDetails_props now serverDetails r hr hpast

/-- Witness for C8's amended theorem at a concrete three-task report whose
present timestamps are in the past. -/
theorem taskDetails_sorted_spec_witness :
    taskDetailsRead (ω := Nat) RunStatus.done 400
        [("b", { submission_time := some "300" }), ("a", { submission_time := none }),
         ("c", { submission_time := some "100" })] initHandle =
      .ok ([("c", { submission_time := some 100 }),
            ("b", { submission_time := some 300 }),
            ("a", { submission_time := none })],
           ⟨RunStatus.done, "", none,
            some [("c", { submission_time := some 100 }),
                  ("b", { submission_time := some 300 }),
                  ("a", { submission_time := none })]⟩, 2) ∧
    List.Pairwise (fun a b : String × RunDetails =>
      a.2.submission_time.getD 400 ≤ b.2.submission_time.getD 400)
      [("c", ({ submission_time := some 100 } : RunDetails)),
       ("b", { submission_time := some 300 }),
       ("a", { submission_time := none })] ∧
    List.Pairwise (fun a b : String × RunDetails =>
      a.2.submission_time = none → b.2.submission_time = none)
      [("c", ({ submission_time := some 100 } : RunDetails)),
       ("b", { submission_time := some 300 }),
       ("a", { submission_time := none })] := by
  have hpast : ∀ it ∈ [("b", ({ submission_time := some "300" } : RawDetails)),
      ("a", { submission_time := none }), ("c", { submission_time := some "100" })],
      ∀ ts, it.2.submission_time = some ts →
      ∀ d, parseDate ts = some d → d < 400 := by
    intro it hit ts hts d hd
    rcases List.mem_cons.mp hit with h | hit
    · subst h
      injection hts with hts
      subst hts
      have : d = 300 := by
        have h300 : parseDate "300" = some 300 := rfl
        rw [h300] at hd
        injection hd with hd
        omega
      omega
    rcases List.mem_cons.mp hit with h | hit
    · subst h
      cases hts
    rcases List.mem_cons.mp hit with h | hit
    · subst h
      injection hts with hts
      subst hts
      have h100 : parseDate "100" = some 100 := rfl
      rw [h100] at hd
      injection hd with hd
      omega
    · cases hit
  have hmain := taskDetails_sorted_spec (ω := Nat) RunStatus.done 400
    [("b", { submission_time := some "300" }), ("a", { submission_time := none }),
     ("c", { submission_time := some "100" })] initHandle rfl
    [("c", { submission_time := some 100 }), ("b", { submission_time := some 300 }),
     ("a", { submission_time := none })]
    ⟨RunStatus.done, "", none,
     some [("c", { submission_time := some 100 }), ("b", { submission_time := some 300 }),
           ("a", { submission_time := none })]⟩ 2 rfl hpast
  exact ⟨rfl, hmain.1, hmain.2⟩

lemma b64Index_b64Char (n : Nat) (h : n < 64) : b64Index (b64Char n) = some n := by
  have hall : ∀ m : Fin 64, b64Index (b64Char m.1) = some m.1 := by decide
  exact hall ⟨n, h⟩

lemma b64Char_ne_pad (n : Nat) (h : n < 64) : ¬(b64Char n = '=') := by
  have hall : ∀ m : Fin 64, ¬(b64Char m.1 = '=') := by decide
  exact hall ⟨n, h⟩

lemma isB64Char_b64Char (n : Nat) : isB64Char (b64Char n) = true := by
  by_cases h : n < 64
  · simp [isB64Char, b64Index_b64Char n h]
  · have hlen : b64Alphabet.length = 64 := by decide
    have : b64Char n = 'A' := by
      unfold b64Char
      exact List.getD_eq_default _ _ (by omega)
    rw [this]
    decide

lemma isB64Char_encodeGroups : ∀ (bs : List Nat), ∀ c ∈ encodeGroups bs, isB64Char c = true
  | [] => by
      intro c hc
      cases hc
  | [b1] => by
      intro c hc
      simp only [encodeGroups, List.mem_cons, List.not_mem_nil, or_false] at hc
      rcases hc with h | h | h | h
      · rw [h]
        exact isB64Char_b64Char _
      · rw [h]
        exact isB64Char_b64Char _
      · rw [h]
        decide
      · rw [h]
        decide
  | [b1, b2] => by
      intro c hc
      simp only [encodeGroups, List.mem_cons, List.not_mem_nil, or_false] at hc
      rcases hc with h | h | h | h
      · rw [h]
        exact isB64Char_b64Char _
      · rw [h]
        exact isB64Char_b64Char _
      · rw [h]
        exact isB64Char_b64Char _
      · rw [h]
        decide
  | b1 :: b2 :: b3 :: rest => by
      intro c hc
      simp only [encodeGroups, List.mem_cons] at hc
      rcases hc with h | h | h | h | h
      · rw [h]
        exact isB64Char_b64Char _
      · rw [h]
        exact isB64Char_b64Char _
      · rw [h]
        exact isB64Char_b64Char _
      · rw [h]
        exact isB64Char_b64Char _
      · exact isB64Char_encodeGroups rest c h

lemma decodeGroups_encodeGroups : ∀ (bs : List Nat), (∀ b ∈ bs, b < 256) →
    decodeGroups (encodeGroups bs) = some bs
  | [] => fun _ => rfl
  | [b1] => fun h => by
      have hb1 : b1 < 256 := h b1 (by simp)
      have h1 := b64Index_b64Char (b1 / 4) (by omega)
      have h2 := b64Index_b64Char (b1 % 4 * 16) (by omega)
      simp [encodeGroups, decodeGroups, h1, h2]
      omega
  | [b1, b2] => fun h => by
      have hb1 : b1 < 256 := h b1 (by simp)
      have hb2 : b2 < 256 := h b2 (by simp)
      have h1 := b64Index_b64Char (b1 / 4) (by omega)
      have h2 := b64Index_b64Char (b1 % 4 * 16 + b2 / 16) (by omega)
      have h3 := b64Index_b64Char (b2 % 16 * 4) (by omega)
      have hne : ¬(b64Char (b2 % 16 * 4) = '=') := b64Char_ne_pad _ (by omega)
      simp [encodeGroups, decodeGroups, h1, h2, h3, hne]
      omega
  | b1 :: b2 :: b3 :: rest => fun h => by
      have hb1 : b1 < 256 := h b1 (by simp)
      have hb2 : b2 < 256 := h b2 (by simp)
      have hb3 : b3 < 256 := h b3 (by simp)
      have ih := decodeGroups_encodeGroups rest (fun b hb => h b (by simp [hb]))
      have h1 := b64Index_b64Char (b1 / 4) (by omega)
      have h2 := b64Index_b64Char (b1 % 4 * 16 + b2 / 16) (by omega)
      have h3 := b64Index_b64Char (b2 % 16 * 4 + b3 / 64) (by omega)
      have h4 := b64Index_b64Char (b3 % 64) (by omega)
      have hne3 : ¬(b64Char (b2 % 16 * 4 + b3 / 64) = '=') := b64Char_ne_pad _ (by omega)
      have hne4 : ¬(b64Char (b3 % 64) = '=') := b64Char_ne_pad _ (by omega)
      simp [encodeGroups, decodeGroups, h1, h2, h3, h4, hne3, hne4, ih]
      omega

lemma filter_encodeGroups (bs : List Nat) :
    (encodeGroups bs ++ ['\n']).filter isB64Char = encodeGroups bs := by
  rw [List.filter_append]
  have h1 : (encodeGroups bs).filter isB64Char = encodeGroups bs :=
    List.filter_eq_self.mpr (fun c hc => isB64Char_encodeGroups bs c hc)
  have h2 : (['\n'] : List Char).filter isB64Char = [] := rfl
  rw [h1, h2, List.append_nil]

/-- C9 counterexample: the wire text "e30=" (the canonical encoding of the
payload bytes of "\x7b\x7d" with its trailing newline stripped, still a
perfectly decodable base64 text) decodes successfully, but re-encoding the
decoded payload appends the newline again, so encode(decode(x)) = x fails. -/
theorem encode_decode_not_inverse_cex :
    decode "e30=" = some [123, 125] ∧
    (decode "e30=").map encode = some "e30=\n" ∧
    ("e30=\n" : String) ≠ "e30=" := by
  refine ⟨by decide, by decide, by decide⟩

/-- C9 (amended): `decode` is a left inverse of `encode` on every byte
payload — decode(encode(x)) = x — and consequently encode(decode(y)) = y
holds for every y in the image of `encode` (canonical encodings); it does not
hold for every decodable text (see the counterexample). -/
theorem encode_decode_roundtrip (data : List Nat) (h : ∀ b ∈ data, b < 256) :
    decode (encode data) = some data ∧
    (decode (encode data)).map encode = some (encode data) := by
  have hdec : decode (encode data) = some data := by
    cases data with
    | nil => rfl
    | cons b bs =>
        show (b64Decode (String.mk (encodeGroups (b :: bs)) ++ "\n")).map zlibDecompress =
          some (b :: bs)
        have htl : (String.mk (encodeGroups (b :: bs)) ++ "\n").toList =
            encodeGroups (b :: bs) ++ ['\n'] :=
          String.data_append _ _
        unfold b64Decode
        rw [htl, filter_encodeGroups, decodeGroups_encodeGroups (b :: bs) h]
        rfl
  exact ⟨hdec, by rw [hdec]; rfl⟩

/-- Witness for C9's amended theorem at the payload bytes of "\x7b\x7d". -/
theorem encode_decode_roundtrip_witness :
    decode (encode [123, 125]) = some [123, 125] ∧
    (decode (encode [123, 125])).map encode = some (encode [123, 125]) :=
  encode_decode_roundtrip [123, 125] (by decide)
